import Mathlib

/-!
Verification of the tncexporter core (frame decoder, connection manager,
metrics aggregator) against its natural-language specification.

The Python source is shallowly embedded:

* `bytes` values become `List Nat` (each entry is one octet, 0..255);
* Python `str` values become `List Char`;
* code that can raise an exception which escapes the function is embedded
  as `Except PyError _`; exceptions that the source catches locally are
  folded into the control flow exactly as the handlers dictate;
* latitude/longitude values produced by the plaintext position parser are
  exact decimal numbers with four fractional digits, embedded as `Int`
  values in units of 10^-4 degree.  `round(float("DDMM.mm") / 100, 4)` is
  exactly the decimal number DD.MMmm, so the rounding step of the source is
  the identity in this representation;
* the regular expressions of the source are embedded as explicit
  backtracking matchers with Python `re.search` semantics (leftmost start,
  greedy or lazy quantifiers with backtracking, `.` not matching a
  newline).
-/

/-- One octet of a Python `bytes` object. -/
abbrev Byte := Nat

/-- A Python `bytes` object. -/
abbrev Bytes := List Byte

/-- Python exception classes that can escape the embedded functions. -/
inductive PyError where
  | indexError
  | valueError
  | typeError
deriving Repr, DecidableEq

/-- Python slice `raw[a:b]` (clamping at the ends, never raising). -/
def pySlice (raw : Bytes) (a b : Nat) : Bytes :=
  (raw.drop a).take (b - a)

/-- Python `bytes.strip(b"\x00")`: remove leading and trailing zero bytes. -/
def stripNulls (bs : Bytes) : Bytes :=
  ((bs.dropWhile (· == 0)).reverse.dropWhile (· == 0)).reverse

/-- Python `bytes.decode("ascii")` (strict): fails iff some octet is >= 128.
`none` models the `UnicodeDecodeError` that the caller catches. -/
def decodeAsciiStrict (bs : Bytes) : Option (List Char) :=
  if bs.all (· < 128) then some (bs.map Char.ofNat) else none

/-- Python `bytes.decode("ascii", errors="replace")`: octets >= 128 become
U+FFFD, never raising. -/
def decodeAsciiReplace (bs : Bytes) : List Char :=
  bs.map (fun b => if b < 128 then Char.ofNat b else Char.ofNat 0xFFFD)

/-- Python `int.from_bytes(bs, byteorder="little", signed=False)`. -/
def leNat : Bytes → Nat
  | [] => 0
  | b :: rest => b + 256 * leNat rest

/-- Python `str.upper()` applied to `chr(b)` for one octet `b` (0..255):
ASCII lowercase and the Latin-1 letters map to their uppercase forms,
`ß` (0xDF) maps to the two-character string `SS`, `µ` (0xB5) to U+039C,
`ÿ` (0xFF) to U+0178; everything else is unchanged. -/
def pyUpperChar (c : Char) : List Char :=
  if 97 ≤ c.toNat ∧ c.toNat ≤ 122 then [Char.ofNat (c.toNat - 32)]
  else if c.toNat = 0xDF then [ 'S', 'S']
  else if c.toNat = 0xB5 then [Char.ofNat 0x39C]
  else if c.toNat = 0xFF then [Char.ofNat 0x178]
  else if 0xE0 ≤ c.toNat ∧ c.toNat ≤ 0xFE ∧ c.toNat ≠ 0xF7 then [Char.ofNat (c.toNat - 32)]
  else [c]

/-- The regex character class `[0-9]`. -/
def isDigit (c : Char) : Bool := 48 ≤ c.toNat && c.toNat ≤ 57

/-- A regex character class `[lo-hi]` given by code points. -/
def inRange (lo hi : Nat) (c : Char) : Bool := lo ≤ c.toNat && c.toNat ≤ hi

/-- Python `int(s)` for a string of decimal digits (also the numeric value
used to bound the matched groups). -/
def digitsToNat (s : List Char) : Nat :=
  s.foldl (fun a c => 10 * a + (c.toNat - 48)) 0

/-- Python `str.split(sep)` for a one-character separator: splits at every
occurrence, keeping empty pieces, `split` of the empty string is `[""]`. -/
def pySplit (sep : Char) : List Char → List (List Char)
  | [] => [[]]
  | c :: rest =>
    match pySplit sep rest with
    | [] => [[]]
    | grp :: rs => if c = sep then [] :: grp :: rs else (c :: grp) :: rs

/-- Python `bytes.split(sep)` for a one-byte separator, same semantics. -/
def pySplitBytes (sep : Byte) : Bytes → List Bytes
  | [] => [[]]
  | b :: rest =>
    match pySplitBytes sep rest with
    | [] => [[]]
    | grp :: rs => if b = sep then [] :: grp :: rs else (b :: grp) :: rs

/-! ## The timestamp regex

`re.search("[0-2][0-9]:[0-5][0-9]:[0-5][0-9]", data_string)` followed by
`int()` of the three two-digit groups.  The pattern has a fixed width, so
the search returns the components of the leftmost match. -/

/-- Try the time pattern at the head of the string. -/
def matchTimeAt : List Char → Option (Nat × Nat × Nat)
  | h1 :: h2 :: ':' :: m1 :: m2 :: ':' :: s1 :: s2 :: _ =>
    if inRange 48 50 h1 && isDigit h2 && inRange 48 53 m1 && isDigit m2 &&
        inRange 48 53 s1 && isDigit s2 then
      some (digitsToNat [h1, h2], digitsToNat [m1, m2], digitsToNat [s1, s2])
    else none
  | _ => none

/-- `re.search` for the time pattern: leftmost match wins. -/
def searchTime : List Char → Option (Nat × Nat × Nat)
  | [] => none
  | c :: rest =>
    match matchTimeAt (c :: rest) with
    | some r => some r
    | none => searchTime rest

/-! ## The position regex

`re.search(r"([0-9][0-9][0-9][0-9]\.[0-9][0-9])(?:[0-9]|,){0,5}(N|S).{0,2}"
           r"([0-1][0-9][0-9][0-9][0-9]\.[0-9][0-9])(?:[0-9]|,){0,5}(E|W)", data_field)`

The four captured groups.  The gaps `(?:[0-9]|,){0,5}` and `.{0,2}` are
greedy one-character-class quantifiers: at each start position the engine
tries the largest consumable count first and backtracks downwards. -/

structure LatLonMatch where
  rawLat : List Char
  dirLat : Char
  rawLon : List Char
  dirLon : Char
deriving Repr, DecidableEq

/-- Return the first `some` value of `f` along a list of candidates. -/
def firstSome (f : α → Option β) : List α → Option β
  | [] => none
  | x :: xs =>
    match f x with
    | some y => some y
    | none => firstSome f xs

/-- Candidate consumption counts for a greedy `(?:C){0,bound}` quantifier over
a one-character class `pred`, largest first. -/
def gapChoices (pred : Char → Bool) (bound : Nat) (s : List Char) : List Nat :=
  (List.range (min bound (s.takeWhile pred).length + 1)).reverse

/-- The regex class `[0-9]|,` used in the gaps of the position pattern. -/
def isDigitComma (c : Char) : Bool := isDigit c || c = ','

/-- Group 1: `[0-9][0-9][0-9][0-9]\.[0-9][0-9]` at the head of the string. -/
def matchG1 : List Char → Option (List Char × List Char)
  | a :: b :: c :: d :: '.' :: e :: f :: rest =>
    if isDigit a && isDigit b && isDigit c && isDigit d && isDigit e && isDigit f then
      some ([a, b, c, d, '.', e, f], rest)
    else none
  | _ => none

/-- Group 3: `[0-1][0-9][0-9][0-9][0-9]\.[0-9][0-9]` at the head of the string. -/
def matchG3 : List Char → Option (List Char × List Char)
  | a :: b :: c :: d :: e :: '.' :: f :: g :: rest =>
    if (a = '0' || a = '1') && isDigit b && isDigit c && isDigit d && isDigit e &&
        isDigit f && isDigit g then
      some ([a, b, c, d, e, '.', f, g], rest)
    else none
  | _ => none

/-- The final `(E|W)` letter of the pattern, read at a candidate position. -/
def dirEW (rawLat : List Char) (dirLat : Char) (rawLon : List Char) :
    List Char → Option LatLonMatch
  | c :: _ => if c = 'E' || c = 'W' then some ⟨rawLat, dirLat, rawLon, c⟩ else none
  | [] => none

/-- The longitude group at a candidate position after the `.{0,2}` gap,
followed by the second digit-comma gap and the `(E|W)` letter. -/
def lonAt (rawLat : List Char) (dirLat : Char) (s : List Char) : Option LatLonMatch :=
  match matchG3 s with
  | none => none
  | some (rawLon, rest) =>
    firstSome (fun j3 => dirEW rawLat dirLat rawLon (rest.drop j3))
      (gapChoices isDigitComma 5 rest)

/-- After the latitude direction letter: `.{0,2}` gap, group 3, second
digit-comma gap, then `(E|W)`. -/
def matchTail2 (rawLat : List Char) (dirLat : Char) (s : List Char) : Option LatLonMatch :=
  firstSome (fun j2 => lonAt rawLat dirLat (s.drop j2))
    (gapChoices (fun c => c != Char.ofNat 10) 2 s)

/-- The `(N|S)` letter of the pattern, read at a candidate position. -/
def dirNS (rawLat : List Char) : List Char → Option LatLonMatch
  | c :: rest2 => if c = 'N' || c = 'S' then matchTail2 rawLat c rest2 else none
  | [] => none

/-- Try the whole position pattern anchored at the head of the string. -/
def matchLatLonAt (s : List Char) : Option LatLonMatch :=
  match matchG1 s with
  | none => none
  | some (rawLat, rest1) =>
    firstSome (fun j1 => dirNS rawLat (rest1.drop j1))
      (gapChoices isDigitComma 5 rest1)

/-- `re.search` for the position pattern: leftmost start position wins. -/
def searchLatLon : List Char → Option LatLonMatch
  | [] => none
  | c :: rest =>
    match matchLatLonAt (c :: rest) with
    | some m => some m
    | none => searchLatLon rest

/-- `round(float(s) / 100, 4)` for a matched group `s` of shape
`digits "." d d`, expressed in units of 10^-4 degree.  The quotient has
exactly four decimal digits, so the rounding is exact. -/
def centsVal (s : List Char) : Int :=
  (digitsToNat (s.takeWhile (fun c => c ≠ '.')) * 100 +
    digitsToNat ((s.dropWhile (fun c => c ≠ '.')).drop 1) : Nat)

/-- The decimal value of a matched group `s` (`float(s)` of the source),
as an exact rational. -/
def ratVal (s : List Char) : ℚ :=
  (digitsToNat (s.takeWhile (fun c => c ≠ '.')) : ℚ) +
    (digitsToNat ((s.dropWhile (fun c => c ≠ '.')).drop 1) : ℚ) / 100

/-- The source's conversion of the four regex groups to the `lat_lon` pair:
`N`/`E` keep the sign, `S`/`W` negate, any other letter leaves the
coordinate as `None` (unreachable because the regex only captures those
four letters, but embedded faithfully). -/
def plaintextCoords (m : LatLonMatch) : Option Int × Option Int :=
  ((if m.dirLat = 'N' then some (centsVal m.rawLat)
    else if m.dirLat = 'S' then some (-(centsVal m.rawLat)) else none),
   (if m.dirLon = 'E' then some (centsVal m.rawLon)
    else if m.dirLon = 'W' then some (-(centsVal m.rawLon)) else none))

/-- `PacketInfo._parse_coordinates` of parser.py: plaintext position search
only (no Mic-E decoding in that module, the fallback is a TODO).  The inner
`try` of the source cannot fire: the matched groups are always valid float
literals, so the `except (IndexError, ValueError)` arm is dead code. -/
def parse_coordinates (ds : List Char) : Option Int × Option Int :=
  match searchLatLon ds with
  | some m => plaintextCoords m
  | none => (none, none)

/-! ## The digipeater path -/

/-- `re.findall("(?:Via )(.*?)(?: <)", data_string)[0]`: the lazy group of
the leftmost match.  The lazy `.*?` stops at the nearest following " <" and
cannot cross a newline. -/
def lazyUpTo : List Char → Option (List Char)
  | ' ' :: '<' :: _ => some []
  | '\n' :: _ => none
  | _ :: [] => none
  | c :: rest =>
    match lazyUpTo rest with
    | some g => some (c :: g)
    | none => none
  | [] => none

/-- Leftmost occurrence of `"Via "` that is followed (newline-free) by
`" <"`; returns the text in between. -/
def findVia : List Char → Option (List Char)
  | [] => none
  | c :: rest =>
    if c = 'V' ∧ [ 'i', 'a', ' '].isPrefixOf rest then
      match lazyUpTo (rest.drop 3) with
      | some g => some g
      | none => findVia rest
    else findVia rest

/-- The tuple `path_types` of the source: system-routing aliases that do not
count as digipeater hops (matched case-sensitively by `in`). -/
def path_types : List (List Char) :=
  [String.toList "RELAY", String.toList "ECHO", String.toList "TRACE",
   String.toList "GATE", String.toList "BEACON", String.toList "ARISS",
   String.toList "RFONLY", String.toList "NOGATE"]

/-- `re.fullmatch("^WIDE(\b|([0-9]-[0-9])|[0-9])", h)`.  The pattern is a
non-raw Python string, so `\b` is the literal backspace character 0x08, not
a word boundary: the bare token "WIDE" does not match. -/
def wideFullmatch : List Char → Bool
  | 'W' :: 'I' :: 'D' :: 'E' :: [c] => c = Char.ofNat 8 || isDigit c
  | 'W' :: 'I' :: 'D' :: 'E' :: [d, '-', e] => isDigit d && isDigit e
  | _ => false

/-- The claim's WIDE-token shapes: `WIDEn` and `WIDEn-n` with decimal
digits (no backspace variant). -/
def claimWide : List Char → Bool
  | 'W' :: 'I' :: 'D' :: 'E' :: [c] => isDigit c
  | 'W' :: 'I' :: 'D' :: 'E' :: [d, '-', e] => isDigit d && isDigit e
  | _ => false

/-- The hop filter of the source: keep the comma-separated entries that are
neither a `path_types` alias nor a `wideFullmatch` token, in order. -/
def filterHops (toks : List (List Char)) : List (List Char) :=
  toks.filter (fun t => !(path_types.contains t) && !(wideFullmatch t))

/-! ## The AGW frame decoder of exporter.py

`TNCExporter.parse_packet_agw` together with the module-level
`parse_coordinates`.  The Mic-E fallback of `parse_coordinates` calls the
external `aprspy` library; it is embedded as an explicit function
parameter `micE` (invoked only when the plaintext regex does not match):
its `.ok` result covers every outcome of that call that does not escape
the enclosing `try`, and `.error` an exception that escapes. -/

structure AgwPacket where
  frame_type : List Char
  data_len : Nat
  call_from : Option (List Char)
  call_to : Option (List Char)
  timestamp : Option (Nat × Nat × Nat)
  lat_lon : Option Int × Option Int
  hops_count : Nat
  hops_path : List (List Char)
deriving Repr, DecidableEq

/-- The Mic-E fallback collaborator of `parse_coordinates` (aprspy). -/
def MicE := Option (List Char) → List Char → Except PyError (Option Int × Option Int)

/-- `parse_coordinates(dest_field, data_field)` of exporter.py: plaintext
regex first, Mic-E fallback otherwise. -/
def exporterCoordinates (micE : MicE) (dest : Option (List Char)) (ds : List Char) :
    Except PyError (Option Int × Option Int) :=
  match searchLatLon ds with
  | some m => Except.ok (plaintextCoords m)
  | none => micE dest ds

namespace TNCExporter

/-- The hop extraction of `parse_packet_agw`, applied to the result of the
Via-pattern search: the inner `except IndexError` leaves `hops = []` when
the pattern is absent. -/
def hopsOf : Option (List Char) → List (List Char)
  | some hs => filterHops (pySplit ',' hs)
  | none => []

/-- Assembly of the decoded record from the coordinate-extraction result
(an escaping Mic-E exception propagates). -/
def coordStep (ft : List Char) (len_data : Nat) (cf ct : Option (List Char))
    (ts : Option (Nat × Nat × Nat)) (hops : List (List Char)) :
    Except PyError (Option Int × Option Int) → Except PyError AgwPacket
  | Except.error e => Except.error e
  | Except.ok coords =>
    Except.ok ⟨ft, len_data, cf, ct, ts, coords, hops.length, hops⟩

/-- The tail of `parse_packet_agw` once the payload decoded as ASCII and the
timestamp block did not raise: hop extraction, then coordinate
extraction. -/
def finishAgw (micE : MicE) (ft : List Char) (len_data : Nat)
    (cf ct : Option (List Char)) (ts : Option (Nat × Nat × Nat)) (ds : List Char) :
    Except PyError AgwPacket :=
  coordStep ft len_data cf ct ts (hopsOf (findVia ds)) (exporterCoordinates micE ct ds)

/-- The timestamp block of `parse_packet_agw`, applied to the result of the
time-pattern search: `datetime.time` raises `ValueError` for a matched
hour of 24..29 (regex minutes and seconds are always 0..59). -/
def timeStep (micE : MicE) (ft : List Char) (len_data : Nat)
    (cf ct : Option (List Char)) (ds : List Char) :
    Option (Nat × Nat × Nat) → Except PyError AgwPacket
  | some (h, m, s) =>
    if 24 ≤ h then Except.error PyError.valueError
    else finishAgw micE ft len_data cf ct (some (h, m, s)) ds
  | none => finishAgw micE ft len_data cf ct none ds

/-- `TNCExporter.parse_packet_agw(raw_packet)`.

* `raw_packet[4]` raises `IndexError` (uncaught) when the input is shorter
  than 5 bytes;
* the callsign fields decode strictly, a `UnicodeDecodeError` there is
  caught and leaves the field `None`;
* a `UnicodeDecodeError` while decoding the payload is caught and skips
  timestamp, hops and coordinates;
* the timestamp block is `timeStep` above. -/
def parse_packet_agw (micE : MicE) (raw : Bytes) : Except PyError AgwPacket :=
  let len_data := leNat (pySlice raw 28 32)
  if raw.length < 5 then Except.error PyError.indexError
  else
    let ft := pyUpperChar (Char.ofNat (raw.getD 4 0))
    let cf := decodeAsciiStrict (stripNulls (pySlice raw 8 18))
    let ct := decodeAsciiStrict (stripNulls (pySlice raw 18 28))
    match decodeAsciiStrict (stripNulls (raw.drop 36)) with
    | none => Except.ok ⟨ft, len_data, cf, ct, none, (none, none), 0, []⟩
    | some ds => timeStep micE ft len_data cf ct ds (searchTime ds)

/-- Reduction of `parse_packet_agw` once the length check passed and the
payload decoded. -/
theorem parse_packet_agw_eq_timeStep (micE : MicE) (raw : Bytes) (ds : List Char)
    (h5 : ¬ raw.length < 5)
    (hds : decodeAsciiStrict (stripNulls (raw.drop 36)) = some ds) :
    parse_packet_agw micE raw =
      timeStep micE (pyUpperChar (Char.ofNat (raw.getD 4 0))) (leNat (pySlice raw 28 32))
        (decodeAsciiStrict (stripNulls (pySlice raw 8 18)))
        (decodeAsciiStrict (stripNulls (pySlice raw 18 28))) ds (searchTime ds) := by
  unfold parse_packet_agw
  rw [if_neg h5, hds]

end TNCExporter

/-! ## The AGW frame decoder of parser.py

`PacketInfo.__init__` sets the defaults and `_parse_packet_agw` mutates
them; the whole body is wrapped in `try ... except IndexError`, so an
`IndexError` keeps every field assigned before it fired.  The decoder has
no Mic-E fallback (a TODO in the source).  The source stores the payload
length into a fresh attribute `len_data`, so the declared `data_len` field
keeps its default 0 forever. -/

structure ParserPacket where
  frame_type : List Char
  data_len : Nat
  data_type : List Char
  info_field : Bytes
  call_from : List Char
  call_to : List Char
  timestamp : Nat × Nat × Nat
  lat_lon : Option Int × Option Int
  hops_count : Nat
  hops_path : List (List Char)
deriving Repr, DecidableEq

namespace PacketInfo

/-- The field defaults assigned by `PacketInfo.__init__` (timestamp default
is `datetime.time(0, 0, 0)`). -/
def defaults : ParserPacket :=
  ⟨String.toList "Unknown", 0, String.toList "Unknown", [], [], [],
   (0, 0, 0), (none, none), 0, []⟩

/-- The tail of `_parse_packet_agw` after the timestamp block. -/
def finishAgw (ft cf ct : List Char) (db : Bytes) (ds : List Char)
    (ts : Nat × Nat × Nat) : ParserPacket :=
  let hops :=
    match findVia ds with
    | some hs => filterHops (pySplit ',' hs)
    | none => []
  { defaults with
      frame_type := ft, call_from := cf, call_to := ct,
      info_field := (pySplitBytes 13 db).getD 1 [],
      timestamp := ts, lat_lon := parse_coordinates ds,
      hops_count := hops.length, hops_path := hops }

/-- `PacketInfo._parse_packet_agw(raw_packet)` (the `kiss=False` branch of
the constructor).

* `raw_packet[4]` raises `IndexError` for inputs shorter than 5 bytes;
  the outer handler catches it, leaving every default in place;
* the callsigns decode with `errors="replace"` (never raising);
* `data_bytes.split(b"\r")[1]` raises `IndexError` whenever the stripped
  payload contains no carriage return; the outer handler catches it,
  keeping the already-assigned frame type and callsigns and the remaining
  defaults;
* as in exporter.py, a matched time token with hour 24..29 raises an
  uncaught `ValueError` (`except TypeError` does not catch it). -/
def parse_packet_agw (raw : Bytes) : Except PyError ParserPacket :=
  if raw.length < 5 then Except.ok defaults
  else
    let ft := pyUpperChar (Char.ofNat (raw.getD 4 0))
    let cf := decodeAsciiReplace (stripNulls (pySlice raw 8 18))
    let ct := decodeAsciiReplace (stripNulls (pySlice raw 18 28))
    let db := stripNulls (raw.drop 36)
    if db.contains 13 = false then
      Except.ok { defaults with frame_type := ft, call_from := cf, call_to := ct }
    else
      let ds := decodeAsciiReplace db
      match searchTime ds with
      | some (h, m, s) =>
        if 24 ≤ h then Except.error PyError.valueError
        else Except.ok (finishAgw ft cf ct db ds (h, m, s))
      | none => Except.ok (finishAgw ft cf ct db ds (0, 0, 0))

end PacketInfo

/-! ## The metrics aggregator cycle

`TNCExporter.metric_updater`: one cycle drains the queue inside a single
`try`; an exception while parsing a frame (the per-packet metric updates
are total) jumps to the `except` handler, ending the drain loop for that
cycle.  The failing frame has already been taken off the queue; the frames
behind it stay queued for the next cycle. -/

/-- One drain pass of `metric_updater` over the queued frames (AGW mode):
returns the list handed to `summary_metrics` and the frames left on the
queue when the cycle ends. -/
def runCycle (micE : MicE) : List Bytes → List AgwPacket × List Bytes
  | [] => ([], [])
  | p :: rest =>
    match TNCExporter.parse_packet_agw micE p with
    | Except.ok info =>
      let r := runCycle micE rest
      (info :: r.1, r.2)
    | Except.error _ => ([], rest)

/-! ## The windowed summary

`TNCExporter.summary_metrics`.  The four gauge values (max simplex
distance, max digipeated distance, received count, transmitted count) are
set together at the end of the function; an escaping exception therefore
updates none of them.  `haversine_distance` operates on floating-point
numbers; it is embedded as an explicit function parameter `dist`, which
none of the settled claims constrain.  `self.location` is `None` or a
pair; iterating `None` raises `TypeError`, and `max()` of an empty list
raises `ValueError`, which the source catches, keeping the initial 0. -/

structure SummaryValues where
  maxSimplex : ℚ
  maxDigi : ℚ
  rxRecent : Nat
  txRecent : Nat
deriving Repr, DecidableEq

/-- Python `max(l)` guarded by `try ... except ValueError: pass` with the
target initialized to 0. -/
def pyMax0 : List ℚ → ℚ
  | [] => 0
  | x :: xs => xs.foldl max x

/-- `all([v is not None for v in packet_info["lat_lon"]])`. -/
def usableCoords (p : AgwPacket) : Bool :=
  p.lat_lon.1.isSome && p.lat_lon.2.isSome

/-- `TNCExporter.summary_metrics(packets)` with receiver location `loc`
(`none` embeds `self.location is None`; the inner options embed `None`
components of the tuple, rejected by the `all(...)` check). -/
def summary_metrics (dist : ℚ × ℚ → Int × Int → ℚ)
    (loc : Option (Option ℚ × Option ℚ)) (packets : List AgwPacket) :
    Except PyError SummaryValues :=
  if packets.length = 0 then Except.ok ⟨0, 0, 0, 0⟩
  else
    let rx := packets.filter (fun p => !(p.frame_type == [ 'T']))
    let tx := packets.filter (fun p => p.frame_type == [ 'T'])
    match loc with
    | none => Except.error PyError.typeError
    | some (la?, lo?) =>
      match la?, lo? with
      | some la, some lo =>
        let rfL := (rx.filter (fun p => usableCoords p && p.hops_count == 0)).map
          (fun p => dist (la, lo) (p.lat_lon.1.getD 0, p.lat_lon.2.getD 0))
        let digiL := (rx.filter (fun p => usableCoords p && !(p.hops_count == 0))).map
          (fun p => dist (la, lo) (p.lat_lon.1.getD 0, p.lat_lon.2.getD 0))
        Except.ok ⟨pyMax0 rfL, pyMax0 digiL, rx.length, tx.length⟩
      | _, _ => Except.ok ⟨0, 0, rx.length, tx.length⟩

/-! ## The connection manager

`Listener.connect_agw` and `Listener.receive_packets`.  The socket is
embedded as two traces: the outcomes of successive `connect()` attempts
(`false` = `ConnectionRefusedError`, `true` = success) and the chunks
returned by successive `recv()` calls (an empty chunk is the peer closing
the connection, which the source turns into `ConnectionResetError`). -/

inductive ConnectOutcome where
  /-- The attempt trace is exhausted with every attempt refused: the loop
  is still sleeping and retrying (`except ConnectionRefusedError`). -/
  | retryPending
  /-- An empty `recv()` during the handshake: `connect_agw` raises
  `ConnectionResetError`, which nothing in the source catches. -/
  | reset
  /-- The version reply did not carry frame type `R`: `sys.exit()`. -/
  | fatalExit
  /-- Handshake complete, monitor-request frame sent. -/
  | connected
  /-- The chunk trace is exhausted while fewer than 36 bytes have arrived:
  the handshake is still blocked in `recv()`. -/
  | needMoreChunks
deriving Repr, DecidableEq

/-- The check on `version_packet[4]` after the handshake accumulation
(`'R'` = 82). -/
def checkVersion (acc : Bytes) : ConnectOutcome :=
  if acc.getD 4 0 = 82 then ConnectOutcome.connected else ConnectOutcome.fatalExit

/-- The handshake accumulation loop of `connect_agw`: read chunks until at
least 36 bytes, raising `ConnectionResetError` on an empty chunk. -/
def hsLoop (acc : Bytes) : List Bytes → ConnectOutcome
  | [] => if 36 ≤ acc.length then checkVersion acc else ConnectOutcome.needMoreChunks
  | c :: rest =>
    if 36 ≤ acc.length then checkVersion acc
    else if c.isEmpty then ConnectOutcome.reset
    else hsLoop (acc ++ c) rest

/-- `Listener.connect_agw`: loop over connection attempts, sleeping and
retrying on refusal, then run the handshake on the first success. -/
def connect_agw : List Bool → List Bytes → ConnectOutcome
  | [], _ => ConnectOutcome.retryPending
  | true :: _, chunks => hsLoop [] chunks
  | false :: rest, chunks => connect_agw rest chunks

/-- The inner accumulation loop of `Listener.receive_packets`: read chunks
until at least 36 bytes are buffered.  An empty chunk raises
`ConnectionResetError`, which the loop catches itself: it reconnects and
`continue`s with the buffer kept (the reconnection is abstracted away; its
own failure modes are covered by `connect_agw` above).  Returns the
accumulated frame and the unread rest of the trace, or `none` when the
trace ends while the loop is still waiting for data. -/
def recvLoop (acc : Bytes) : List Bytes → Option (Bytes × List Bytes)
  | [] => if 36 ≤ acc.length then some (acc, []) else none
  | c :: rest =>
    if 36 ≤ acc.length then some (acc, c :: rest)
    else recvLoop (if c.isEmpty then acc else acc ++ c) rest

/-- One iteration of the outer `while True` of `receive_packets` in AGW
mode: accumulate one frame and append it to the queue. -/
def agwStep (q : List Bytes) (trace : List Bytes) : Option (List Bytes × List Bytes) :=
  match recvLoop [] trace with
  | some (f, rest) => some (q ++ [f], rest)
  | none => none

/-- The KISS enqueueing of `receive_packets`: split the accumulated buffer
on the frame delimiter 0xC0 and enqueue every non-empty piece, in order. -/
def kissStep (q : List Bytes) (buf : Bytes) : List Bytes :=
  q ++ (pySplitBytes 192 buf).filter (fun p => 0 < p.length)

/-! ## Helper lemmas -/

theorem pySplitBytes_ne_nil (sep : Byte) (l : Bytes) : pySplitBytes sep l ≠ [] := by
  cases l with
  | nil => simp [pySplitBytes]
  | cons b rest =>
    unfold pySplitBytes
    cases h : pySplitBytes sep rest with
    | nil => simp
    | cons g rs => by_cases hb : b = sep <;> simp [hb]

theorem pySplitBytes_join (sep : Byte) (l : Bytes) :
    (List.intersperse [sep] (pySplitBytes sep l)).flatten = l := by
  induction l with
  | nil => simp [pySplitBytes]
  | cons b rest ih =>
    unfold pySplitBytes
    cases h : pySplitBytes sep rest with
    | nil => exact absurd h (pySplitBytes_ne_nil sep rest)
    | cons g rs =>
      rw [h] at ih
      by_cases hb : b = sep
      · subst hb
        simp only [if_pos rfl]
        cases rs with
        | nil => simpa [List.intersperse] using ih
        | cons r rs2 => simpa [List.intersperse] using ih
      · simp only [if_neg hb]
        cases rs with
        | nil => simpa [List.intersperse] using ih
        | cons r rs2 => simpa [List.intersperse] using ih

theorem pySplitBytes_no_sep (sep : Byte) (l : Bytes) :
    ∀ s ∈ pySplitBytes sep l, sep ∉ s := by
  induction l with
  | nil => simp [pySplitBytes]
  | cons b rest ih =>
    unfold pySplitBytes
    cases h : pySplitBytes sep rest with
    | nil => exact absurd h (pySplitBytes_ne_nil sep rest)
    | cons g rs =>
      have ihg : sep ∉ g := by
        have := ih g
        rw [h] at this
        exact this (by simp)
      have ihrs : ∀ s ∈ rs, sep ∉ s := by
        intro s hs
        have := ih s
        rw [h] at this
        exact this (by simp [hs])
      have hred : (match g :: rs with
          | [] => ([[]] : List Bytes)
          | grp :: rs => if b = sep then [] :: grp :: rs else (b :: grp) :: rs) =
          if b = sep then [] :: g :: rs else (b :: g) :: rs := rfl
      rw [hred]
      by_cases hb : b = sep
      · rw [if_pos hb]
        intro s hs
        simp only [List.mem_cons] at hs
        rcases hs with hs | hs | hs
        · subst hs
          simp
        · subst hs
          exact ihg
        · exact ihrs s hs
      · rw [if_neg hb]
        intro s hs
        simp only [List.mem_cons] at hs
        rcases hs with hs | hs
        · subst hs
          intro hmem
          simp only [List.mem_cons] at hmem
          rcases hmem with hmem | hmem
          · exact hb hmem.symm
          · exact ihg hmem
        · exact ihrs s hs

theorem recvLoop_min_length (trace : List Bytes) :
    ∀ acc f rest, recvLoop acc trace = some (f, rest) → 36 ≤ f.length := by
  induction trace with
  | nil =>
    intro acc f rest h
    unfold recvLoop at h
    by_cases hl : 36 ≤ acc.length
    · rw [if_pos hl] at h
      cases h
      exact hl
    · rw [if_neg hl] at h
      cases h
  | cons c cs ih =>
    intro acc f rest h
    unfold recvLoop at h
    by_cases hl : 36 ≤ acc.length
    · rw [if_pos hl] at h
      cases h
      exact hl
    · rw [if_neg hl] at h
      exact ih _ f rest h

/-- Claim C9: in KISS mode every non-empty 0xC0-delimited segment of the
accumulated buffer is enqueued as its own RawFrame, in buffer order, empty
segments are dropped, no enqueued segment contains the delimiter, and the
segments (with the delimiters reinserted) reassemble the buffer exactly. -/
theorem kiss_segments_enqueued_separately (q : List Bytes) (buf : Bytes) :
    kissStep q buf = q ++ (pySplitBytes 192 buf).filter (fun p => 0 < p.length) ∧
    (∀ s ∈ (pySplitBytes 192 buf).filter (fun p => 0 < p.length), s ≠ [] ∧ 192 ∉ s) ∧
    (List.intersperse [192] (pySplitBytes 192 buf)).flatten = buf := by
  refine ⟨rfl, ?_, pySplitBytes_join 192 buf⟩
  intro s hs
  rw [List.mem_filter] at hs
  refine ⟨?_, pySplitBytes_no_sep 192 buf s hs.1⟩
  intro hnil
  subst hnil
  simp at hs

/-- Claim C10: every frame the AGW streaming loop enqueues is at least 36
bytes long; the step appends exactly one such frame to the queue. -/
theorem agw_enqueued_frame_min_length (q trace : List Bytes) (f : Bytes)
    (rest : List Bytes) (h : recvLoop [] trace = some (f, rest)) :
    36 ≤ f.length ∧ agwStep q trace = some (q ++ [f], rest) := by
  refine ⟨recvLoop_min_length trace [] f rest h, ?_⟩
  unfold agwStep
  rw [h]

/-- Witness for C10 at a concrete trace: a single 40-byte read yields one
frame of length 40 ≥ 36 appended to the empty queue. -/
theorem agw_enqueued_frame_min_length_witness :
    36 ≤ (List.replicate 40 7 : Bytes).length ∧
    agwStep [] [List.replicate 40 7] = some ([] ++ [List.replicate 40 7], []) :=
  agw_enqueued_frame_min_length [] [List.replicate 40 7] (List.replicate 40 7) []
    (by decide)

/-- The canonical Mic-E collaborator used in concrete evaluations: the
external decode returns no position and raises nothing. -/
def micENone : MicE := fun _ _ => Except.ok (none, none)

/-- Counterexample to claim C7: a connection reset (empty `recv()`) during
the handshake phase, right after the first successful connect, makes
`connect_agw` raise an uncaught `ConnectionResetError` instead of retrying
— the reset is surfaced, not handled. -/
theorem handshake_reset_uncaught_counterexample :
    connect_agw [true] [[]] = ConnectOutcome.reset ∧
    ConnectOutcome.reset ≠ ConnectOutcome.retryPending := by
  constructor
  · rfl
  · decide

/-- Claim C7 as amended: connection refusal is retried indefinitely and
never surfaced (any finite run of refusals leaves the manager still
retrying); a reset during the streaming phase is caught by the receive
loop, which reconnects and keeps accumulating; but a reset during the
handshake phase escapes `connect_agw` as an uncaught
`ConnectionResetError`. -/
theorem connection_error_handling_amended :
    (∀ (n : Nat) (chunks : List Bytes),
        connect_agw (List.replicate n false) chunks = ConnectOutcome.retryPending) ∧
    (∀ (acc : Bytes) (rest : List Bytes), acc.length < 36 →
        recvLoop acc ([] :: rest) = recvLoop acc rest) ∧
    (∀ (acc : Bytes) (chunks : List Bytes), acc.length < 36 →
        hsLoop acc ([] :: chunks) = ConnectOutcome.reset) := by
  refine ⟨?_, ?_, ?_⟩
  · intro n chunks
    induction n with
    | zero => rfl
    | succ k ih => simpa [List.replicate_succ, connect_agw] using ih
  · intro acc rest hlt
    conv_lhs => rw [recvLoop]
    rw [if_neg (by omega)]
    rfl
  · intro acc chunks hlt
    conv_lhs => rw [hsLoop]
    rw [if_neg (by omega)]
    rfl

/-- Witness for the amended C7 at concrete inputs: two refusals still
retry; a streaming reset with a 3-byte buffer continues accumulating; a
handshake reset on an empty buffer raises. -/
theorem connection_error_handling_amended_witness :
    connect_agw (List.replicate 2 false) [] = ConnectOutcome.retryPending ∧
    recvLoop [1, 2, 3] ([] :: [List.replicate 40 9]) = recvLoop [1, 2, 3] [List.replicate 40 9] ∧
    hsLoop [] ([] :: []) = ConnectOutcome.reset :=
  ⟨connection_error_handling_amended.1 2 [],
   connection_error_handling_amended.2.1 [1, 2, 3] [List.replicate 40 9] (by decide),
   connection_error_handling_amended.2.2 [] [] (by decide)⟩

/-- A queueable AGW frame (36-byte header plus payload) whose decode
raises: its payload time token `25:10:10` makes `datetime.time` raise an
uncaught `ValueError`. -/
def badTimeFrame : Bytes :=
  List.replicate 36 0 ++ (String.toList "<[25:10:10]").map Char.toNat

/-- Counterexample to claim C2: with the queue holding a frame whose
decode raises (a well-formed-length frame carrying the time token
`25:10:10`) followed by a decodable 36-byte frame, the cycle processes
nothing and leaves the second frame on the queue: the exception aborts the
drain loop instead of continuing with the next frame. -/
theorem cycle_abort_counterexample :
    TNCExporter.parse_packet_agw micENone badTimeFrame = Except.error PyError.valueError ∧
    (TNCExporter.parse_packet_agw micENone (List.replicate 36 0)).isOk = true ∧
    runCycle micENone [badTimeFrame, List.replicate 36 0] =
      ([], [List.replicate 36 0]) := by
  refine ⟨rfl, by decide, rfl⟩

/-- Claim C2 as amended: within one aggregation cycle, the frames decoded
before the first failure are metricized and handed to the summary, but the
first exception ends the drain loop: the failing frame is discarded and
every frame queued behind it is left on the queue for the next cycle
(rather than being decoded in the same cycle). -/
theorem cycle_stops_at_first_failure (micE : MicE) (pre : List Bytes)
    (bad : Bytes) (rest : List Bytes)
    (hpre : ∀ p ∈ pre, (TNCExporter.parse_packet_agw micE p).isOk = true)
    (hbad : (TNCExporter.parse_packet_agw micE bad).isOk = false) :
    runCycle micE (pre ++ bad :: rest) =
      (pre.filterMap (fun p => (TNCExporter.parse_packet_agw micE p).toOption), rest) := by
  induction pre with
  | nil =>
    simp only [List.nil_append, List.filterMap_nil]
    unfold runCycle
    cases hb : TNCExporter.parse_packet_agw micE bad with
    | ok info => rw [hb] at hbad; simp [Except.isOk, Except.toBool] at hbad
    | error e => rfl
  | cons p ps ih =>
    have hp : (TNCExporter.parse_packet_agw micE p).isOk = true := hpre p (by simp)
    cases hq : TNCExporter.parse_packet_agw micE p with
    | error e => rw [hq] at hp; simp [Except.isOk, Except.toBool] at hp
    | ok info =>
      have ihe := ih (fun x hx => hpre x (by simp [hx]))
      simp only [List.cons_append]
      unfold runCycle
      rw [hq, ihe]
      simp [List.filterMap_cons, hq, Except.toOption]

/-- Witness for the amended C2: one good frame, then the raising frame,
then another good frame; the cycle metricizes only the first and leaves
the last on the queue. -/
theorem cycle_stops_at_first_failure_witness :
    runCycle micENone [List.replicate 36 0, badTimeFrame, List.replicate 36 0] =
      ([List.replicate 36 0].filterMap
        (fun p => (TNCExporter.parse_packet_agw micENone p).toOption),
       [List.replicate 36 0]) :=
  cycle_stops_at_first_failure micENone [List.replicate 36 0] badTimeFrame
    [List.replicate 36 0]
    (by intro p hp; simp only [List.mem_singleton] at hp; subst hp; decide)
    (by decide)

/-- A decoded packet with no usable coordinates, as produced by parsing a
bare 36-byte header (used in concrete summary evaluations). -/
def noCoordPacket : AgwPacket :=
  ⟨[Char.ofNat 0], 0, some [], some [], none, (none, none), 0, []⟩

/-- The distance collaborator used in concrete summary evaluations. -/
def distZero : ℚ × ℚ → Int × Int → ℚ := fun _ _ => 0

/-- Counterexample to claim C8: when the receiver location is not
configured (`None`) and at least one frame (here one with no usable
coordinates) was drained, `summary_metrics` iterates over `None`, raises
`TypeError`, and none of the four windowed gauges is set — in particular
the maximum-distance gauges are not set to zero. -/
theorem summary_no_location_counterexample :
    summary_metrics distZero none [noCoordPacket] = Except.error PyError.typeError := by
  rfl

/-- Claim C8 as amended: a cycle that drained zero frames publishes all
four windowed gauges as zero (for every receiver location, even `None`);
with a configured receiver location, a window whose frames all lack usable
coordinates publishes zero for both maximum-distance gauges (alongside the
counts); but when the location is `None` and at least one frame was
drained, `summary_metrics` raises `TypeError` and sets no gauge at all. -/
theorem summary_zero_window_amended (dist : ℚ × ℚ → Int × Int → ℚ) :
    (∀ loc, summary_metrics dist loc [] = Except.ok ⟨0, 0, 0, 0⟩) ∧
    (∀ (la lo : ℚ) (ps : List AgwPacket), ps ≠ [] →
        (∀ p ∈ ps, usableCoords p = false) →
        summary_metrics dist (some (some la, some lo)) ps =
          Except.ok ⟨0, 0, (ps.filter (fun p => !(p.frame_type == [ 'T']))).length,
            (ps.filter (fun p => p.frame_type == [ 'T'])).length⟩) ∧
    (∀ ps : List AgwPacket, ps ≠ [] →
        summary_metrics dist none ps = Except.error PyError.typeError) := by
  refine ⟨?_, ?_, ?_⟩
  · intro loc
    rfl
  · intro la lo ps hne hnc
    unfold summary_metrics
    rw [if_neg (by simpa using hne)]
    have hrf : (ps.filter (fun p => !(p.frame_type == [ 'T']))).filter
        (fun p => usableCoords p && p.hops_count == 0) = [] := by
      rw [List.filter_eq_nil_iff]
      intro p hp
      rw [List.mem_filter] at hp
      simp [hnc p hp.1]
    have hdg : (ps.filter (fun p => !(p.frame_type == [ 'T']))).filter
        (fun p => usableCoords p && !(p.hops_count == 0)) = [] := by
      rw [List.filter_eq_nil_iff]
      intro p hp
      rw [List.mem_filter] at hp
      simp [hnc p hp.1]
    simp only [hrf, hdg, List.map_nil]
    rfl
  · intro ps hne
    unfold summary_metrics
    rw [if_neg (by simpa using hne)]

/-- Witness for the amended C8: the empty window publishes zeros for a
`None` location; a one-packet window without coordinates publishes zero
maxima under a configured location; the same window under a `None`
location raises. -/
theorem summary_zero_window_amended_witness :
    summary_metrics distZero none [] = Except.ok ⟨0, 0, 0, 0⟩ ∧
    summary_metrics distZero (some (some 1, some 2)) [noCoordPacket] =
      Except.ok ⟨0, 0, ([noCoordPacket].filter (fun p => !(p.frame_type == [ 'T']))).length,
        ([noCoordPacket].filter (fun p => p.frame_type == [ 'T'])).length⟩ ∧
    summary_metrics distZero none [noCoordPacket] = Except.error PyError.typeError :=
  ⟨(summary_zero_window_amended distZero).1 none,
   (summary_zero_window_amended distZero).2.1 1 2 [noCoordPacket] (by decide)
     (by intro p hp; simp only [List.mem_singleton] at hp; subst hp; decide),
   (summary_zero_window_amended distZero).2.2 [noCoordPacket] (by decide)⟩

/-- Counterexample to claim C1: the 5-byte input `b"\x00\x00\x00\x00U"` is
shorter than 36 bytes, yet parser.py decodes it with `frame_type = "U"`,
not `"Unknown"`: the frame type and callsigns are assigned before the
length-dependent `IndexError` fires. -/
theorem short_frame_not_unknown_counterexample :
    PacketInfo.parse_packet_agw [0, 0, 0, 0, 85] =
      Except.ok { PacketInfo.defaults with frame_type := [ 'U'] } ∧
    ({ PacketInfo.defaults with frame_type := [ 'U'] } : ParserPacket).frame_type ≠
      String.toList "Unknown" := by
  exact ⟨rfl, by decide⟩

/-- Claim C1 as amended: for every input shorter than 36 bytes the
parser.py AGW decode returns without raising, with the timestamp,
coordinates, hop list, hop count, data length and information field at
their defaults; inputs shorter than 5 bytes additionally keep the default
`"Unknown"` frame type and empty callsigns, while inputs of length 5..35
carry the frame type taken from byte 4 and the callsign fields.  (For
inputs of length at least 36 the decode can raise: see the `ValueError`
of the timestamp block.) -/
theorem short_frame_decode_amended (raw : Bytes) (h : raw.length < 36) :
    (∃ p, PacketInfo.parse_packet_agw raw = Except.ok p ∧
      p.timestamp = (0, 0, 0) ∧ p.lat_lon = (none, none) ∧
      p.hops_path = [] ∧ p.hops_count = 0 ∧ p.data_len = 0 ∧ p.info_field = []) ∧
    (raw.length < 5 → PacketInfo.parse_packet_agw raw = Except.ok PacketInfo.defaults) := by
  have hdrop : raw.drop 36 = [] := List.drop_eq_nil_of_le (by omega)
  constructor
  · by_cases h5 : raw.length < 5
    · refine ⟨PacketInfo.defaults, ?_, rfl, rfl, rfl, rfl, rfl, rfl⟩
      unfold PacketInfo.parse_packet_agw
      rw [if_pos h5]
    · refine ⟨{ PacketInfo.defaults with
          frame_type := pyUpperChar (Char.ofNat (raw.getD 4 0)),
          call_from := decodeAsciiReplace (stripNulls (pySlice raw 8 18)),
          call_to := decodeAsciiReplace (stripNulls (pySlice raw 18 28)) },
        ?_, rfl, rfl, rfl, rfl, rfl, rfl⟩
      unfold PacketInfo.parse_packet_agw
      rw [if_neg h5, hdrop]
      rfl
  · intro h5
    unfold PacketInfo.parse_packet_agw
    rw [if_pos h5]

/-- Witness for the amended C1 at the empty input. -/
theorem short_frame_decode_amended_witness :
    (∃ p, PacketInfo.parse_packet_agw [] = Except.ok p ∧
      p.timestamp = (0, 0, 0) ∧ p.lat_lon = (none, none) ∧
      p.hops_path = [] ∧ p.hops_count = 0 ∧ p.data_len = 0 ∧ p.info_field = []) ∧
    (([] : Bytes).length < 5 → PacketInfo.parse_packet_agw [] = Except.ok PacketInfo.defaults) :=
  short_frame_decode_amended [] (by decide)

/-- Counterexample to claim C3: a 36-byte header followed by the payload
`"<[25:10:10]"` contains the zero-padded time token `25:10:10` (hours
00..29, minutes/seconds 00..59), yet decoding does not set the timestamp
to it: `datetime.time(hour=25, ...)` raises `ValueError`, which escapes
(the source catches only `TypeError`). -/
theorem timestamp_hour25_counterexample :
    TNCExporter.parse_packet_agw micENone
        (List.replicate 36 0 ++ (String.toList "<[25:10:10]").map Char.toNat) =
      Except.error PyError.valueError := rfl

/-- Claim C3 as amended: for an AGW frame of length at least 36 whose
payload decodes as ASCII, if the leftmost `HH:MM:SS` token has hour 00..23
then every successful decode carries exactly that token's hour, minute and
second; if the leftmost token has hour 24..29 the decode raises
`ValueError`; and with no token a successful decode leaves the timestamp
unset. -/
theorem timestamp_decode_amended (micE : MicE) (raw : Bytes) (ds : List Char)
    (h36 : 36 ≤ raw.length)
    (hds : decodeAsciiStrict (stripNulls (raw.drop 36)) = some ds) :
    (∀ h m s, searchTime ds = some (h, m, s) → h ≤ 23 →
       ∀ r, TNCExporter.parse_packet_agw micE raw = Except.ok r →
         r.timestamp = some (h, m, s)) ∧
    (∀ h m s, searchTime ds = some (h, m, s) → 24 ≤ h →
       TNCExporter.parse_packet_agw micE raw = Except.error PyError.valueError) ∧
    (searchTime ds = none →
       ∀ r, TNCExporter.parse_packet_agw micE raw = Except.ok r →
         r.timestamp = none) := by
  have h5 : ¬ raw.length < 5 := by omega
  have hpe := TNCExporter.parse_packet_agw_eq_timeStep micE raw ds h5 hds
  refine ⟨?_, ?_, ?_⟩
  · intro h m s hst hh r
    rw [hpe, hst]
    simp only [TNCExporter.timeStep]
    rw [if_neg (by omega)]
    unfold TNCExporter.finishAgw
    cases hc : exporterCoordinates micE
        (decodeAsciiStrict (stripNulls (pySlice raw 18 28))) ds with
    | error e =>
      intro hr
      cases hr
    | ok coords =>
      intro hr
      cases hr
      rfl
  · intro h m s hst hh
    rw [hpe, hst]
    simp only [TNCExporter.timeStep]
    rw [if_pos hh]
  · intro hst r
    rw [hpe, hst]
    simp only [TNCExporter.timeStep]
    unfold TNCExporter.finishAgw
    cases hc : exporterCoordinates micE
        (decodeAsciiStrict (stripNulls (pySlice raw 18 28))) ds with
    | error e =>
      intro hr
      cases hr
    | ok coords =>
      intro hr
      cases hr
      rfl

/-- The payload text of the C3 witness frame. -/
def c3ds : List Char := String.toList ">[11:22:33]"

/-- The C3 witness frame: a 36-byte header followed by that payload. -/
def c3Frame : Bytes := List.replicate 36 0 ++ c3ds.map Char.toNat

/-- The decode of the C3 witness frame. -/
def c3Packet : AgwPacket :=
  ⟨[Char.ofNat 0], 0, some [], some [], some (11, 22, 33), (none, none), 0, []⟩

/-- Witness for the amended C3: the frame with payload `">[11:22:33]"`
decodes successfully and its timestamp is exactly 11:22:33. -/
theorem timestamp_decode_amended_witness :
    TNCExporter.parse_packet_agw micENone c3Frame = Except.ok c3Packet ∧
    c3Packet.timestamp = some (11, 22, 33) :=
  ⟨rfl,
   (timestamp_decode_amended micENone c3Frame c3ds (by decide) (by decide)).1
     11 22 33 (by decide) (by decide) c3Packet rfl⟩

theorem claimWide_fullmatch (t : List Char) (h : claimWide t = true) :
    wideFullmatch t = true := by
  unfold claimWide at h
  split at h
  · unfold wideFullmatch
    simp [h]
  · unfold wideFullmatch
    simp [h]
  · cases h

theorem filterHops_eq_nil (toks : List (List Char))
    (h : ∀ t ∈ toks, t ∈ path_types ∨ claimWide t = true) :
    filterHops toks = [] := by
  unfold filterHops
  rw [List.filter_eq_nil_iff]
  intro t ht
  rcases h t ht with hp | hw
  · simp only [Bool.and_eq_true, Bool.not_eq_true']
    intro hcontra
    have hc2 : List.elem t path_types = false := hcontra.1
    rw [List.elem_eq_mem] at hc2
    simp only [decide_eq_false_iff_not] at hc2
    exact absurd hp hc2
  · simp [claimWide_fullmatch t hw]

/-- Claim C5: in any successful AGW decode, the hop path is exactly the
comma-split of the text between `"Via "` and the next `" <"` with the
system aliases (RELAY, ECHO, TRACE, GATE, BEACON, ARISS, RFONLY, NOGATE,
case-sensitively) and the WIDE-pattern tokens removed, in path order;
`hops_count` is its length; and when every token of the path field is such
an alias or a `WIDEn` / `WIDEn-n` token, the hop path is empty and the hop
count zero. -/
theorem hop_filtering_correct (micE : MicE) (raw : Bytes) (r : AgwPacket)
    (ds hs : List Char)
    (hok : TNCExporter.parse_packet_agw micE raw = Except.ok r)
    (hds : decodeAsciiStrict (stripNulls (raw.drop 36)) = some ds)
    (hvia : findVia ds = some hs) :
    r.hops_path = filterHops (pySplit ',' hs) ∧
    r.hops_count = r.hops_path.length ∧
    ((∀ t ∈ pySplit ',' hs, t ∈ path_types ∨ claimWide t = true) →
      r.hops_path = [] ∧ r.hops_count = 0) := by
  have h5 : ¬ raw.length < 5 := by
    intro h5
    unfold TNCExporter.parse_packet_agw at hok
    rw [if_pos h5] at hok
    cases hok
  rw [TNCExporter.parse_packet_agw_eq_timeStep micE raw ds h5 hds] at hok
  have hmain : r.hops_path = filterHops (pySplit ',' hs) ∧
      r.hops_count = r.hops_path.length := by
    cases hts : searchTime ds with
    | some hms =>
      obtain ⟨h, m, s⟩ := hms
      rw [hts] at hok
      simp only [TNCExporter.timeStep] at hok
      by_cases hh : 24 ≤ h
      · rw [if_pos hh] at hok
        cases hok
      · rw [if_neg hh] at hok
        unfold TNCExporter.finishAgw at hok
        rw [hvia] at hok
        simp only [TNCExporter.hopsOf] at hok
        cases hc : exporterCoordinates micE
            (decodeAsciiStrict (stripNulls (pySlice raw 18 28))) ds with
        | error e =>
          rw [hc] at hok
          cases hok
        | ok coords =>
          rw [hc] at hok
          simp only [TNCExporter.coordStep] at hok
          cases hok
          exact ⟨rfl, rfl⟩
    | none =>
      rw [hts] at hok
      simp only [TNCExporter.timeStep] at hok
      unfold TNCExporter.finishAgw at hok
      rw [hvia] at hok
      simp only [TNCExporter.hopsOf] at hok
      cases hc : exporterCoordinates micE
          (decodeAsciiStrict (stripNulls (pySlice raw 18 28))) ds with
      | error e =>
        rw [hc] at hok
        cases hok
      | ok coords =>
        rw [hc] at hok
        simp only [TNCExporter.coordStep] at hok
        cases hok
        exact ⟨rfl, rfl⟩
  refine ⟨hmain.1, hmain.2, ?_⟩
  intro hall
  have hnil := filterHops_eq_nil (pySplit ',' hs) hall
  refine ⟨hmain.1.trans hnil, ?_⟩
  rw [hmain.2, hmain.1, hnil]
  rfl

/-- The payload text of the C5 witness frame: a path field holding only a
WIDE token and a system alias. -/
def c5ds : List Char := String.toList "Via WIDE1-1,RELAY <x"

/-- The C5 witness frame. -/
def c5Frame : Bytes := List.replicate 36 0 ++ c5ds.map Char.toNat

/-- The decode of the C5 witness frame. -/
def c5Packet : AgwPacket :=
  ⟨[Char.ofNat 0], 0, some [], some [], none, (none, none), 0, []⟩

/-- Witness for C5: a frame whose path field is `WIDE1-1,RELAY` decodes
with an empty hop path and hop count zero. -/
theorem hop_filtering_correct_witness :
    c5Packet.hops_path = [] ∧ c5Packet.hops_count = 0 :=
  (hop_filtering_correct micENone c5Frame c5Packet c5ds
      (String.toList "WIDE1-1,RELAY") rfl (by decide) (by decide)).2.2
    (by decide)

theorem firstSome_eq_some {α β : Type} {f : α → Option β} {l : List α} {y : β}
    (h : firstSome f l = some y) : ∃ x ∈ l, f x = some y := by
  induction l with
  | nil => cases h
  | cons x xs ih =>
    unfold firstSome at h
    cases hx : f x with
    | some z =>
      rw [hx] at h
      cases h
      exact ⟨x, by simp, hx⟩
    | none =>
      rw [hx] at h
      obtain ⟨w, hw, hfw⟩ := ih h
      exact ⟨w, by simp [hw], hfw⟩

/-- The shape of a captured latitude group: four digits, a dot, two digits. -/
def latFormat (s : List Char) : Prop :=
  ∃ a b c d e f, s = [a, b, c, d, '.', e, f] ∧
    isDigit a = true ∧ isDigit b = true ∧ isDigit c = true ∧ isDigit d = true ∧
    isDigit e = true ∧ isDigit f = true

/-- The shape of a captured longitude group: `0` or `1`, four digits, a
dot, two digits. -/
def lonFormat (s : List Char) : Prop :=
  ∃ a b c d e f g, s = [a, b, c, d, e, '.', f, g] ∧ (a = '0' ∨ a = '1') ∧
    isDigit b = true ∧ isDigit c = true ∧ isDigit d = true ∧ isDigit e = true ∧
    isDigit f = true ∧ isDigit g = true

theorem matchG1_some {s g r} (h : matchG1 s = some (g, r)) : latFormat g := by
  unfold matchG1 at h
  split at h
  · rename_i a b c d e f rest
    split at h
    · rename_i hd
      cases h
      simp only [Bool.and_eq_true] at hd
      exact ⟨a, b, c, d, e, f, rfl, hd.1.1.1.1.1, hd.1.1.1.1.2, hd.1.1.1.2, hd.1.1.2,
        hd.1.2, hd.2⟩
    · cases h
  · cases h

theorem matchG3_some {s g r} (h : matchG3 s = some (g, r)) : lonFormat g := by
  unfold matchG3 at h
  split at h
  · rename_i a b c d e f g2 rest
    split at h
    · rename_i hd
      cases h
      simp only [Bool.and_eq_true, Bool.or_eq_true, decide_eq_true_eq] at hd
      exact ⟨a, b, c, d, e, f, g2, rfl, hd.1.1.1.1.1.1, hd.1.1.1.1.1.2, hd.1.1.1.1.2,
        hd.1.1.1.2, hd.1.1.2, hd.1.2, hd.2⟩
    · cases h
  · cases h

theorem dirEW_some {rl : List Char} {dl : Char} {rawLon : List Char} {s : List Char}
    {m : LatLonMatch} (h : dirEW rl dl rawLon s = some m) :
    m.rawLat = rl ∧ m.dirLat = dl ∧ m.rawLon = rawLon ∧
      (m.dirLon = 'E' ∨ m.dirLon = 'W') := by
  unfold dirEW at h
  split at h
  · rename_i c tail
    split at h
    · rename_i hc
      cases h
      simp only [Bool.or_eq_true, decide_eq_true_eq] at hc
      exact ⟨rfl, rfl, rfl, hc⟩
    · cases h
  · cases h

theorem lonAt_some {rl : List Char} {dl : Char} {s : List Char} {m : LatLonMatch}
    (h : lonAt rl dl s = some m) :
    m.rawLat = rl ∧ m.dirLat = dl ∧ lonFormat m.rawLon ∧
      (m.dirLon = 'E' ∨ m.dirLon = 'W') := by
  unfold lonAt at h
  cases hg3 : matchG3 s with
  | none => rw [hg3] at h; cases h
  | some pr =>
    obtain ⟨rawLon, rest⟩ := pr
    rw [hg3] at h
    obtain ⟨j3, _, h3⟩ := firstSome_eq_some h
    have hd := dirEW_some h3
    exact ⟨hd.1, hd.2.1, hd.2.2.1 ▸ matchG3_some hg3, hd.2.2.2⟩

theorem matchTail2_some {rl : List Char} {dl : Char} {s : List Char} {m : LatLonMatch}
    (h : matchTail2 rl dl s = some m) :
    m.rawLat = rl ∧ m.dirLat = dl ∧ lonFormat m.rawLon ∧
      (m.dirLon = 'E' ∨ m.dirLon = 'W') := by
  unfold matchTail2 at h
  obtain ⟨j2, _, h2⟩ := firstSome_eq_some h
  exact lonAt_some h2

theorem dirNS_some {rl : List Char} {s : List Char} {m : LatLonMatch}
    (h : dirNS rl s = some m) :
    m.rawLat = rl ∧ (m.dirLat = 'N' ∨ m.dirLat = 'S') ∧ lonFormat m.rawLon ∧
      (m.dirLon = 'E' ∨ m.dirLon = 'W') := by
  unfold dirNS at h
  split at h
  · rename_i c rest2
    split at h
    · rename_i hc
      simp only [Bool.or_eq_true, decide_eq_true_eq] at hc
      have ht := matchTail2_some h
      exact ⟨ht.1, ht.2.1 ▸ hc, ht.2.2⟩
    · cases h
  · cases h

theorem matchLatLonAt_some {s : List Char} {m : LatLonMatch}
    (h : matchLatLonAt s = some m) :
    latFormat m.rawLat ∧ (m.dirLat = 'N' ∨ m.dirLat = 'S') ∧
      lonFormat m.rawLon ∧ (m.dirLon = 'E' ∨ m.dirLon = 'W') := by
  unfold matchLatLonAt at h
  cases hg1 : matchG1 s with
  | none => rw [hg1] at h; cases h
  | some pr =>
    obtain ⟨rawLat, rest1⟩ := pr
    rw [hg1] at h
    obtain ⟨j1, _, h1⟩ := firstSome_eq_some h
    have hn := dirNS_some h1
    exact ⟨hn.1 ▸ matchG1_some hg1, hn.2⟩

theorem searchLatLon_some {s : List Char} {m : LatLonMatch}
    (h : searchLatLon s = some m) :
    latFormat m.rawLat ∧ (m.dirLat = 'N' ∨ m.dirLat = 'S') ∧
      lonFormat m.rawLon ∧ (m.dirLon = 'E' ∨ m.dirLon = 'W') := by
  induction s with
  | nil => cases h
  | cons c rest ih =>
    unfold searchLatLon at h
    cases hm : matchLatLonAt (c :: rest) with
    | some m2 =>
      rw [hm] at h
      cases h
      exact matchLatLonAt_some hm
    | none =>
      rw [hm] at h
      exact ih h

theorem ne_dot_of_isDigit {c : Char} (h : isDigit c = true) : c ≠ '.' := by
  intro he
  subst he
  simp [isDigit] at h

theorem isDigit_toNat_bounds {c : Char} (h : isDigit c = true) :
    48 ≤ c.toNat ∧ c.toNat ≤ 57 := by
  simpa [isDigit, Bool.and_eq_true, decide_eq_true_eq] using h

theorem centsVal_explicit (a b c d e f : Char) (ha : a ≠ '.') (hb : b ≠ '.')
    (hc : c ≠ '.') (hd : d ≠ '.') :
    centsVal [a, b, c, d, '.', e, f] =
      ((digitsToNat [a, b, c, d] * 100 + digitsToNat [e, f] : Nat) : Int) := by
  unfold centsVal
  simp [List.takeWhile, List.dropWhile, ha, hb, hc, hd]

theorem centsVal_explicit_lon (a b c d e f g : Char) (ha : a ≠ '.') (hb : b ≠ '.')
    (hc : c ≠ '.') (hd : d ≠ '.') (he : e ≠ '.') :
    centsVal [a, b, c, d, e, '.', f, g] =
      ((digitsToNat [a, b, c, d, e] * 100 + digitsToNat [f, g] : Nat) : Int) := by
  unfold centsVal
  simp [List.takeWhile, List.dropWhile, ha, hb, hc, hd, he]

theorem latFormat_centsVal_le {s : List Char} (h : latFormat s) :
    (centsVal s).natAbs ≤ 999999 ∧ 0 ≤ centsVal s := by
  obtain ⟨a, b, c, d, e, f, rfl, ha, hb, hc, hd, he, hf⟩ := h
  rw [centsVal_explicit a b c d e f (ne_dot_of_isDigit ha) (ne_dot_of_isDigit hb)
    (ne_dot_of_isDigit hc) (ne_dot_of_isDigit hd)]
  have Ba := isDigit_toNat_bounds ha
  have Bb := isDigit_toNat_bounds hb
  have Bc := isDigit_toNat_bounds hc
  have Bd := isDigit_toNat_bounds hd
  have Be := isDigit_toNat_bounds he
  have Bf := isDigit_toNat_bounds hf
  constructor
  · rw [Int.natAbs_ofNat]
    simp only [digitsToNat, List.foldl]
    omega
  · exact Int.ofNat_nonneg _

theorem lonFormat_centsVal_le {s : List Char} (h : lonFormat s) :
    (centsVal s).natAbs ≤ 1999999 ∧ 0 ≤ centsVal s := by
  obtain ⟨a, b, c, d, e, f, g, rfl, ha, hb, hc, hd, he, hf, hg⟩ := h
  have ha2 : a ≠ '.' := by
    rcases ha with h0 | h0 <;> subst h0 <;> decide
  have haN : a.toNat ≤ 49 := by
    rcases ha with h0 | h0 <;> subst h0 <;> decide
  rw [centsVal_explicit_lon a b c d e f g ha2 (ne_dot_of_isDigit hb)
    (ne_dot_of_isDigit hc) (ne_dot_of_isDigit hd) (ne_dot_of_isDigit he)]
  have Bb := isDigit_toNat_bounds hb
  have Bc := isDigit_toNat_bounds hc
  have Bd := isDigit_toNat_bounds hd
  have Be := isDigit_toNat_bounds he
  have Bf := isDigit_toNat_bounds hf
  have Bg := isDigit_toNat_bounds hg
  constructor
  · rw [Int.natAbs_ofNat]
    simp only [digitsToNat, List.foldl]
    omega
  · exact Int.ofNat_nonneg _

/-- Counterexample to claim C4: the payload text `"9999.99N19999.99E"`
matches the position regex and decodes to latitude 99.9999 and longitude
199.9999 (in units of 10^-4 degree: 999999 and 1999999), both far outside
[-90, 90] x [-180, 180] (900000 and 1800000 in these units). -/
theorem latlon_out_of_range_counterexample :
    parse_coordinates (String.toList "9999.99N19999.99E") =
      (some 999999, some 1999999) ∧
    ¬ ((999999 : Int) ≤ 900000) ∧ ¬ ((1999999 : Int) ≤ 1800000) := by
  refine ⟨by decide, by decide, by decide⟩

/-- Claim C4 as amended: the decoded `lat_lon` is either `(None, None)` or
a pair with both coordinates present, never partially populated; when
present, the latitude lies in [-99.9999, 99.9999] and the longitude in
[-199.9999, 199.9999] degrees (the raw regex bounds divided by 100), not
within [-90, 90] x [-180, 180]. -/
theorem latlon_pair_invariant_amended (ds : List Char) :
    parse_coordinates ds = (none, none) ∨
    ∃ la lo, parse_coordinates ds = (some la, some lo) ∧
      la.natAbs ≤ 999999 ∧ lo.natAbs ≤ 1999999 := by
  cases h : searchLatLon ds with
  | none =>
    left
    unfold parse_coordinates
    rw [h]
  | some m =>
    right
    obtain ⟨hlat, hdla, hlon, hdlo⟩ := searchLatLon_some h
    have hpc : parse_coordinates ds = plaintextCoords m := by
      unfold parse_coordinates
      rw [h]
    have hla := latFormat_centsVal_le hlat
    have hlo := lonFormat_centsVal_le hlon
    unfold plaintextCoords at hpc
    rcases hdla with hN | hS <;> rcases hdlo with hE | hW
    · refine ⟨centsVal m.rawLat, centsVal m.rawLon, ?_, hla.1, hlo.1⟩
      rw [hpc, hN, hE]
      simp
    · refine ⟨centsVal m.rawLat, -centsVal m.rawLon, ?_, hla.1, by
        rw [Int.natAbs_neg]; exact hlo.1⟩
      rw [hpc, hN, hW]
      simp
    · refine ⟨-centsVal m.rawLat, centsVal m.rawLon, ?_, by
        rw [Int.natAbs_neg]; exact hla.1, hlo.1⟩
      rw [hpc, hS, hE]
      simp
    · refine ⟨-centsVal m.rawLat, -centsVal m.rawLon, ?_, by
        rw [Int.natAbs_neg]; exact hla.1, by rw [Int.natAbs_neg]; exact hlo.1⟩
      rw [hpc, hS, hW]
      simp

theorem centsVal_div_10000 (s : List Char) :
    (centsVal s : ℚ) / 10000 = ratVal s / 100 := by
  unfold centsVal ratVal
  push_cast
  ring

/-- Claim C6: whenever the plaintext position regex matches, the decoded
coordinate is the matched raw group value divided by 100 (held here in
units of 10^-4 degree, the division having exactly four decimal digits so
that the `round(..., 4)` of the source is the identity), negated exactly
when the direction letter is S or W; in particular the payload
`"!3419.82N111836.06W#"` decodes to (34.1982, -118.3606). -/
theorem plaintext_coordinate_conversion :
    (∀ ds m, searchLatLon ds = some m →
       parse_coordinates ds =
         (some ((if m.dirLat = 'S' then -1 else 1) * centsVal m.rawLat),
          some ((if m.dirLon = 'W' then -1 else 1) * centsVal m.rawLon)) ∧
       (m.dirLat = 'N' ∨ m.dirLat = 'S') ∧ (m.dirLon = 'E' ∨ m.dirLon = 'W') ∧
       (centsVal m.rawLat : ℚ) / 10000 = ratVal m.rawLat / 100 ∧
       (centsVal m.rawLon : ℚ) / 10000 = ratVal m.rawLon / 100) ∧
    parse_coordinates (String.toList "!3419.82N111836.06W#") =
      (some 341982, some (-1183606)) := by
  constructor
  · intro ds m h
    obtain ⟨hlat, hdla, hlon, hdlo⟩ := searchLatLon_some h
    have hpc : parse_coordinates ds = plaintextCoords m := by
      unfold parse_coordinates
      rw [h]
    refine ⟨?_, hdla, hdlo, centsVal_div_10000 m.rawLat, centsVal_div_10000 m.rawLon⟩
    rw [hpc]
    unfold plaintextCoords
    rcases hdla with hD | hD <;> rcases hdlo with hE | hE <;> rw [hD, hE] <;> simp
  · decide

/-- The regex match of the C6 witness payload. -/
def c6m : LatLonMatch :=
  ⟨String.toList "3419.82", 'N', String.toList "11836.06", 'W'⟩

/-- Witness for C6 at the payload of the claim: the match groups are
`3419.82 N / 11836.06 W` and the decode is (34.1982, -118.3606). -/
theorem plaintext_coordinate_conversion_witness :
    parse_coordinates (String.toList "!3419.82N111836.06W#") =
      (some ((if c6m.dirLat = 'S' then -1 else 1) * centsVal c6m.rawLat),
       some ((if c6m.dirLon = 'W' then -1 else 1) * centsVal c6m.rawLon)) ∧
    (c6m.dirLat = 'N' ∨ c6m.dirLat = 'S') ∧ (c6m.dirLon = 'E' ∨ c6m.dirLon = 'W') ∧
    (centsVal c6m.rawLat : ℚ) / 10000 = ratVal c6m.rawLat / 100 ∧
    (centsVal c6m.rawLon : ℚ) / 10000 = ratVal c6m.rawLon / 100 :=
  plaintext_coordinate_conversion.1 (String.toList "!3419.82N111836.06W#") c6m
    (by decide)

/-- Witness for the amended C4 at a concrete payload with a position
report (the second disjunct holds with both coordinates present). -/
theorem latlon_pair_invariant_amended_witness :
    parse_coordinates (String.toList "!2254.81S/04826.34W#") = (none, none) ∨
    ∃ la lo, parse_coordinates (String.toList "!2254.81S/04826.34W#") =
        (some la, some lo) ∧ la.natAbs ≤ 999999 ∧ lo.natAbs ≤ 1999999 :=
  latlon_pair_invariant_amended (String.toList "!2254.81S/04826.34W#")

/-- Witness for C9 at a concrete buffer holding two delimited frames. -/
theorem kiss_segments_enqueued_separately_witness :
    kissStep [] [192, 1, 2, 192, 192, 3, 192] =
      [] ++ (pySplitBytes 192 [192, 1, 2, 192, 192, 3, 192]).filter
        (fun p => 0 < p.length) ∧
    (∀ s ∈ (pySplitBytes 192 [192, 1, 2, 192, 192, 3, 192]).filter
        (fun p => 0 < p.length), s ≠ [] ∧ 192 ∉ s) ∧
    (List.intersperse [192] (pySplitBytes 192 [192, 1, 2, 192, 192, 3, 192])).flatten =
      [192, 1, 2, 192, 192, 3, 192] :=
  kiss_segments_enqueued_separately [] [192, 1, 2, 192, 192, 3, 192]
